import Mathlib

/-!
Shallow embedding of the decision-oversight worker (`src/worker/src/index.ts`).

The worker exposes four routes (`/score`, `/feedback`, `/analytics`, health and
CORS preflight) over a process-wide in-memory feedback store.  The embedding
models:

* JavaScript strings as `String`, with `toLowerCase`/`includes` realised on the
  underlying character lists (the observed inputs are ASCII, where
  `Char.toLower` agrees with JS `toLowerCase`);
* JSON numbers as `ℚ` (exact rational arithmetic; `Number((x).toFixed(2))` is
  modelled by round-half-up at two decimals, the rounding ECMAScript specifies
  for `toFixed` on exactly representable values);
* absent JSON fields as `none`, so JS truthiness on a string field is
  "present and non-empty";
* the feedback store as a `List` of stored records, passed in and out of the
  handler explicitly;
* the string-keyed reasons record as its property table in creation order,
  with `Object.entries`' enumeration order (array-index-like keys first in
  ascending numeric order, then the rest in creation order) applied by
  `entriesOf`;
* `crypto.randomUUID()` and `new Date().toISOString()` as explicit `genId`/`now`
  parameters;
* an uncaught rejection of `await request.json()` (malformed body) as
  `Except.error ()` — the worker has no try/catch around the parse, so the
  fault propagates instead of becoming a JSON response.
-/

/-- JS `String.prototype.toLowerCase`, realised on the character list. -/
def lowerStr (s : String) : String := ⟨s.data.map Char.toLower⟩

/-- Check whether the first list is an initial segment of the second. -/
def isPrefixCh : List Char → List Char → Bool
  | [], _ => true
  | _ :: _, [] => false
  | a :: as, b :: bs => a == b && isPrefixCh as bs

/-- Check whether `pat` occurs as a contiguous segment of the second list. -/
def isSubSeg (pat : List Char) : List Char → Bool
  | [] => isPrefixCh pat []
  | b :: bs => isPrefixCh pat (b :: bs) || isSubSeg pat bs

/-- JS `s.includes(pat)`. -/
def strIncludes (s pat : String) : Bool := isSubSeg pat.data s.data

/-- JS truthiness of a possibly-absent string: `undefined` and `""` are falsy. -/
def jsTruthyStr (o : Option String) : Bool :=
  match o with
  | none => false
  | some s => !(s == "")

/-- The scoring verdict enumeration. -/
inductive Verdict where
  | Approve
  | Review
  | Reject
deriving DecidableEq

/-- Runtime shape of the `case` object of a `/score` request.  Every field is
optional because JSON input is untyped at runtime; the TS annotations of
`ScoreRequest` are compile-time only. -/
structure CaseJson where
  id : Option String
  type : Option String
  summary : Option String
  amount : Option ℚ
  merchant : Option String
  user_context : Option String
deriving DecidableEq

/-- The evaluation text of `scoreCase`:
`` `${input.summary} ${input.merchant ?? ""} ${input.user_context ?? ""}`.toLowerCase() ``.
`summary` is only read after the boundary truthiness check, so it is present
at every actual call site; `getD ""` is the corresponding total reading. -/
def caseText (c : CaseJson) : String :=
  lowerStr ((c.summary.getD "") ++ " " ++ (c.merchant.getD "") ++ " " ++ (c.user_context.getD ""))

/-- Rule 1: `input.amount && input.amount > 500` (an absent amount is falsy;
`0` is falsy but also fails `> 500`, so the guard is absorbed). -/
def amountRule (c : CaseJson) : Bool :=
  match c.amount with
  | none => false
  | some a => decide (500 < a)

/-- Rule 2: `text.includes("urgent") || text.includes("immediately")`. -/
def urgencyRule (c : CaseJson) : Bool :=
  strIncludes (caseText c) "urgent" || strIncludes (caseText c) "immediately"

/-- Rule 3: `text.includes("gift card") || text.includes("wire") || text.includes("crypto")`. -/
def paymentRule (c : CaseJson) : Bool :=
  strIncludes (caseText c) "gift card" || strIncludes (caseText c) "wire" ||
    strIncludes (caseText c) "crypto"

/-- Rule 4: `text.includes("not a scam") || text.includes("trust me")`. -/
def socialRule (c : CaseJson) : Bool :=
  strIncludes (caseText c) "not a scam" || strIncludes (caseText c) "trust me"

/-- One `if (rule) { score += w; signals.push(name); }` block of `scoreCase`. -/
def ruleStep (cond : Bool) (w : ℤ) (name : String) (acc : ℤ × List String) : ℤ × List String :=
  if cond then (acc.1 + w, acc.2 ++ [name]) else acc

/-- The running `(score, signals)` state after the four sequential rule blocks,
starting from the baseline `score = 20` and empty signals. -/
def scoreAcc (c : CaseJson) : ℤ × List String :=
  ruleStep (socialRule c) 15 "social_engineering_phrase"
    (ruleStep (paymentRule c) 25 "high_risk_payment"
      (ruleStep (urgencyRule c) 15 "urgency_language"
        (ruleStep (amountRule c) 25 "high_amount" ((20 : ℤ), []))))

/-- `score = Math.min(100, Math.max(0, score))`. -/
def clampScore (x : ℤ) : ℤ := min 100 (max 0 x)

/-- The verdict assignment of `scoreCase`: initialised to `Approve`, reassigned
to `Reject` when `score >= 70`, else to `Review` when `score >= 40`. -/
def verdictOf (s : ℤ) : Verdict :=
  if s ≥ 70 then .Reject else if s ≥ 40 then .Review else .Approve

/-- `const confidence = score >= 80 || score <= 20 ? 0.85 : 0.65`. -/
def confidenceOf (s : ℤ) : ℚ :=
  if s ≥ 80 ∨ s ≤ 20 then 85/100 else 65/100

/-- The record returned by `scoreCase`. -/
structure ScoreOutcome where
  score : ℤ
  verdict : Verdict
  confidence : ℚ
  signals : List String
deriving DecidableEq

/-- The heuristic scorer `scoreCase` of the worker. -/
def scoreCase (c : CaseJson) : ScoreOutcome :=
  let score := clampScore (scoreAcc c).1
  { score := score
    verdict := verdictOf score
    confidence := confidenceOf score
    signals := (scoreAcc c).2 }

/-- Runtime shape of the `original` sub-object of a feedback body. -/
structure OriginalJson where
  verdict : Option String
  risk_score : Option ℚ
  confidence : Option ℚ
  model : Option String
  backend : Option String
deriving DecidableEq

/-- Runtime shape of a parsed JSON request body, covering the fields the worker
reads on either POST route.  Fields are optional: runtime JSON carries no
guarantees from the TS annotations. -/
structure JsonBody where
  case : Option CaseJson
  case_id : Option String
  reviewer : Option String
  action : Option String
  final_verdict : Option String
  reason_codes : Option (List String)
  notes : Option String
  original : Option OriginalJson
deriving DecidableEq

/-- A stored feedback record: the spread of the request body plus the
server-assigned `received_at` timestamp. -/
structure StoredFeedback where
  body : JsonBody
  received_at : String
deriving DecidableEq

/-- Worker environment bindings (`MODEL_NAME`, `BACKEND`). -/
structure Env where
  MODEL_NAME : Option String
  BACKEND : Option String
deriving DecidableEq

/-- An inbound request: method, path, and the outcome `await request.json()`
would have on its body (`none` = the promise rejects / body unparseable).
GET/OPTIONS routes never read the body. -/
structure Req where
  method : String
  path : String
  body : Option JsonBody
deriving DecidableEq

/-- The `ScoreResponse` JSON object. -/
structure ScoreResponse where
  case_id : String
  risk_score : ℤ
  verdict : Verdict
  confidence : ℚ
  rationale : String
  signals : List String
  model : String
  backend : String
  timestamp : String
deriving DecidableEq

/-- The analytics summary JSON object; `top_reasons` entries are
`(reason, count)` pairs. -/
structure AnalyticsSummary where
  total_feedback : ℕ
  override_rate : ℚ
  top_reasons : List (String × ℕ)
deriving DecidableEq

/-- Response bodies the worker can produce. -/
inductive RespBody where
  | empty
  | health
  | err (msg : String)
  | score (r : ScoreResponse)
  | ok
  | analytics (a : AnalyticsSummary)
deriving DecidableEq

/-- An HTTP response: status code plus body (CORS headers are uniform plumbing
and not modelled). -/
structure Resp where
  status : ℕ
  body : RespBody
deriving DecidableEq

/-- One step of the reasons tally loop `reasons[r] = (reasons[r] ?? 0) + 1`,
on the association list of the record's properties in creation (insertion)
order.  The enumeration order `Object.entries` actually uses is modelled
separately by `entriesOf`. -/
def bump : List (String × ℕ) → String → List (String × ℕ)
  | [], r => [(r, 1)]
  | (k, c) :: t, r => if k = r then (k, c + 1) :: t else (k, c) :: bump t r

/-- The reasons record after the nested loop over all records and their
`reason_codes`, as its property table in creation order. -/
def tallyList (l : List String) : List (String × ℕ) := l.foldl bump []

/-- Numeric value of a digit string (base 10). -/
def digitsVal (s : String) : ℕ :=
  s.data.foldl (fun n c => 10 * n + (c.toNat - 48)) 0

/-- Whether a property key is an ECMAScript array index: the canonical base-10
numeral (no leading zeros except `"0"` itself) of an integer `i` with
`0 ≤ i < 2^32 - 1`.  `Object.entries` enumerates such keys before all other
string keys, in ascending numeric order. -/
def isArrayIndexKey (s : String) : Bool :=
  match s.data with
  | [] => false
  | c :: cs =>
    (c :: cs).all Char.isDigit && (c != '0' || cs.isEmpty) &&
      decide (digitsVal s < 4294967295)

/-- Insert an entry into a list ascending by numeric key value, after every
entry with a smaller-or-equal value. -/
def insertByKeyValAsc (x : String × ℕ) : List (String × ℕ) → List (String × ℕ)
  | [] => [x]
  | y :: ys => if digitsVal y.1 ≤ digitsVal x.1 then y :: insertByKeyValAsc x ys
      else x :: y :: ys

/-- Sort entries ascending by numeric key value (array-index keys are
pairwise distinct canonical numerals, so any correct ascending sort gives the
enumeration order). -/
def sortByKeyValAsc : List (String × ℕ) → List (String × ℕ)
  | [] => []
  | x :: xs => insertByKeyValAsc x (sortByKeyValAsc xs)

/-- `Object.entries` on the reasons record: per `OrdinaryOwnPropertyKeys`,
array-index keys first in ascending numeric order, then the remaining string
keys in creation (insertion) order. -/
def entriesOf (l : List (String × ℕ)) : List (String × ℕ) :=
  sortByKeyValAsc (l.filter (fun p => isArrayIndexKey p.1)) ++
    l.filter (fun p => !isArrayIndexKey p.1)

/-- Insert an entry into a count-descending list, after every entry with a
strictly larger count and before the rest (the stable position). -/
def insertByCountDesc (x : String × ℕ) : List (String × ℕ) → List (String × ℕ)
  | [] => [x]
  | y :: ys => if x.2 < y.2 then y :: insertByCountDesc x ys else x :: y :: ys

/-- Stable sort by count descending, modelling the
`.sort((a, b) => b[1] - a[1])` applied to `entriesOf` the reasons record:
ECMAScript `sort` is stable and any stable sort w.r.t. this comparator
produces the same output. -/
def sortByCountDesc : List (String × ℕ) → List (String × ℕ)
  | [] => []
  | x :: xs => insertByCountDesc x (sortByCountDesc xs)

/-- All reason codes across the store, in store order
(`for f of store.feedback` / `for r of f.reason_codes ?? []`). -/
def flatReasons (store : List StoredFeedback) : List String :=
  store.flatMap (fun f => f.body.reason_codes.getD [])

/-- `Number(x.toFixed(2))` on a nonnegative rational: round-half-up at two
decimal places. -/
def round2 (q : ℚ) : ℚ := (⌊q * 100 + 1/2⌋ : ℚ) / 100

/-- The `/analytics` aggregation over the current store contents. -/
def computeAnalytics (store : List StoredFeedback) : AnalyticsSummary :=
  let total := store.length
  let overrides := (store.filter (fun f => f.body.action == some "Override")).length
  { total_feedback := total
    override_rate := if total = 0 then 0 else round2 ((overrides : ℚ) / (total : ℚ))
    top_reasons := sortByCountDesc (entriesOf (tallyList (flatReasons store))) }

/-- The worker `fetch` handler.  Returns the response (or a propagated fault
`Except.error ()` when an awaited body parse rejects) together with the store
contents after the request. -/
def handleFetch (env : Env) (genId now : String) (req : Req) (store : List StoredFeedback) :
    Except Unit Resp × List StoredFeedback :=
  if req.method = "OPTIONS" then
    (.ok ⟨204, .empty⟩, store)
  else if req.method = "GET" ∧ req.path = "/" then
    (.ok ⟨200, .health⟩, store)
  else if req.method = "POST" ∧ req.path = "/score" then
    match req.body with
    | none => (.error (), store)
    | some body =>
      -- `if (!body?.case?.summary || !body.case.type)`: when `case` is absent
      -- the optional chain makes the first disjunct truthy, so the 400 branch
      -- is taken before `body.case.type` is evaluated.
      match body.case with
      | none => (.ok ⟨400, .err "Missing required fields"⟩, store)
      | some c =>
        if !jsTruthyStr c.summary || !jsTruthyStr c.type then
          (.ok ⟨400, .err "Missing required fields"⟩, store)
        else
          (.ok ⟨200, .score
            { case_id := c.id.getD genId
              risk_score := (scoreCase c).score
              verdict := (scoreCase c).verdict
              confidence := (scoreCase c).confidence
              rationale := "Heuristic risk evaluation for demo purposes."
              signals := (scoreCase c).signals
              model := env.MODEL_NAME.getD "heuristic-mvp"
              backend := env.BACKEND.getD "local"
              timestamp := now }⟩, store)
  else if req.method = "POST" ∧ req.path = "/feedback" then
    match req.body with
    | none => (.error (), store)
    | some body =>
      if !jsTruthyStr body.case_id || !jsTruthyStr body.reviewer ||
          !jsTruthyStr body.final_verdict then
        (.ok ⟨400, .err "Invalid feedback payload"⟩, store)
      else
        (.ok ⟨200, .ok⟩, store ++ [⟨body, now⟩])
  else if req.method = "GET" ∧ req.path = "/analytics" then
    (.ok ⟨200, .analytics (computeAnalytics store)⟩, store)
  else
    (.ok ⟨404, .err "Not found"⟩, store)

/-- The trigger phrases of the text rules, in rule order. -/
def triggerPhrases : List String :=
  ["urgent", "immediately", "gift card", "wire", "crypto", "not a scam", "trust me"]

/-- The fixed rule evaluation order of signal names. -/
def signalOrder : List String :=
  ["high_amount", "urgency_language", "high_risk_payment", "social_engineering_phrase"]

/-- An environment with neither binding set (defaults apply). -/
def envDefault : Env := ⟨none, none⟩

/-- The demo case `CASE-1001` of the spec's example scenario. -/
def caseC1001 : CaseJson :=
  { id := some "CASE-1001", type := some "transaction"
    summary := some "Urgent wire transfer requested by new vendor"
    amount := some 1200, merchant := none, user_context := none }

/-- The demo case `CASE-1002`: low amount, no trigger phrases. -/
def caseC1002 : CaseJson :=
  { id := some "CASE-1002", type := some "transaction"
    summary := some "Low-dollar card purchase at known merchant"
    amount := some 12, merchant := none, user_context := none }

/-- A feedback body whose three checked fields are truthy but whose `action`
is absent. -/
def bodyNoAction : JsonBody :=
  { case := none, case_id := some "CASE-1001", reviewer := some "analyst"
    action := none, final_verdict := some "Approve"
    reason_codes := some ["false_positive"], notes := none, original := none }

/-- A valid feedback body with `action = "Override"` and two reason codes. -/
def bodyOverride : JsonBody :=
  { case := none, case_id := some "CASE-1003", reviewer := some "analyst"
    action := some "Override", final_verdict := some "Reject"
    reason_codes := some ["false_positive", "other"], notes := none, original := none }

/-- A `/score` body whose `summary` is present but the empty string. -/
def bodyEmptySummary : JsonBody :=
  { case := some { id := none, type := some "transaction", summary := some ""
                   amount := none, merchant := none, user_context := none }
    case_id := none, reviewer := none, action := none, final_verdict := none
    reason_codes := none, notes := none, original := none }

/-- A `/score` body whose `type` is present but the empty string. -/
def bodyEmptyType : JsonBody :=
  { case := some { id := none, type := some "", summary := some "Routine purchase"
                   amount := none, merchant := none, user_context := none }
    case_id := none, reviewer := none, action := none, final_verdict := none
    reason_codes := none, notes := none, original := none }

/-- A feedback body whose `case_id` is present but the empty string. -/
def bodyEmptyCaseId : JsonBody :=
  { bodyOverride with case_id := some "" }

/-- A feedback body whose `reviewer` is present but the empty string. -/
def bodyEmptyReviewer : JsonBody :=
  { bodyOverride with reviewer := some "" }

/-- A feedback body whose `final_verdict` is present but the empty string. -/
def bodyEmptyVerdict : JsonBody :=
  { bodyOverride with final_verdict := some "" }

/-- A two-record store: one `Approve` with one reason code, one `Override`
with two. -/
def storeTwo : List StoredFeedback :=
  [⟨bodyNoAction, "t0"⟩, ⟨bodyOverride, "t1"⟩]

/-- A one-record store whose reason codes mix a plain string with an
array-index-like string (`"0"`), in that order. -/
def storeNumericReason : List StoredFeedback :=
  [⟨{ bodyOverride with reason_codes := some ["b", "0"] }, "t0"⟩]

/-- Total count recorded for key `k` across an association list (the sum over
every entry carrying that key); used to specify the reasons tally. -/
def keyCount : List (String × ℕ) → String → ℕ
  | [], _ => 0
  | (k, c) :: t, r => (if k = r then c else 0) + keyCount t r

/-! ### Helper lemmas about the scorer -/

/-- The four rule blocks, resolved into one pair of independent sums/appends. -/
theorem scoreAcc_eq (c : CaseJson) :
    scoreAcc c =
      (20 + (if amountRule c then 25 else 0) + (if urgencyRule c then 15 else 0)
          + (if paymentRule c then 25 else 0) + (if socialRule c then 15 else 0),
        (if amountRule c then ["high_amount"] else [])
          ++ (if urgencyRule c then ["urgency_language"] else [])
          ++ (if paymentRule c then ["high_risk_payment"] else [])
          ++ (if socialRule c then ["social_engineering_phrase"] else [])) := by
  cases h1 : amountRule c <;> cases h2 : urgencyRule c <;> cases h3 : paymentRule c <;>
    cases h4 : socialRule c <;> simp [scoreAcc, ruleStep, h1, h2, h3, h4]

/-! ### C6 -/

/-- C6: for every case, the returned risk score is an integer in [0, 100]; the
clamp `min 100 (max 0 _)` guarantees this whatever the rule sum is. -/
theorem riskScore_in_range (c : CaseJson) :
    0 ≤ (scoreCase c).score ∧ (scoreCase c).score ≤ 100 := by
  have h : (scoreCase c).score = clampScore (scoreAcc c).1 := rfl
  rw [h]; unfold clampScore; omega

/-! ### C7 -/

/-- C7: verdict and confidence are derived from the clamped score by exact
thresholds — score ≥ 70 gives Reject, 40 ≤ score < 70 gives Review,
score < 40 gives Approve (39 → Approve, 40 → Review, 69 → Review,
70 → Reject), and confidence is 0.85 exactly when score ≥ 80 or score ≤ 20
(20 → 0.85, 21 → 0.65, 79 → 0.65, 80 → 0.85), otherwise 0.65; `scoreCase`
applies both derivations to its clamped score. -/
theorem verdict_confidence_thresholds :
    (∀ s : ℤ, 70 ≤ s → verdictOf s = .Reject) ∧
    (∀ s : ℤ, 40 ≤ s → s < 70 → verdictOf s = .Review) ∧
    (∀ s : ℤ, s < 40 → verdictOf s = .Approve) ∧
    (verdictOf 39 = .Approve ∧ verdictOf 40 = .Review ∧ verdictOf 69 = .Review ∧
      verdictOf 70 = .Reject) ∧
    (∀ s : ℤ, 80 ≤ s ∨ s ≤ 20 → confidenceOf s = 85/100) ∧
    (∀ s : ℤ, 20 < s → s < 80 → confidenceOf s = 65/100) ∧
    (confidenceOf 20 = 85/100 ∧ confidenceOf 21 = 65/100 ∧ confidenceOf 79 = 65/100 ∧
      confidenceOf 80 = 85/100) ∧
    (∀ c : CaseJson, (scoreCase c).verdict = verdictOf (scoreCase c).score ∧
      (scoreCase c).confidence = confidenceOf (scoreCase c).score) := by
  refine ⟨?_, ?_, ?_, ⟨rfl, rfl, rfl, rfl⟩, ?_, ?_, ⟨rfl, rfl, rfl, rfl⟩,
    fun c => ⟨rfl, rfl⟩⟩
  · intro s h; unfold verdictOf; rw [if_pos (by omega)]
  · intro s h1 h2; unfold verdictOf; rw [if_neg (by omega), if_pos (by omega)]
  · intro s h; unfold verdictOf; rw [if_neg (by omega), if_neg (by omega)]
  · intro s h; unfold confidenceOf; rw [if_pos (by omega)]
  · intro s h1 h2; unfold confidenceOf; rw [if_neg (by omega)]

/-- Witness for C7 at the boundary scores 70 and 21. -/
theorem verdict_confidence_thresholds_witness :
    verdictOf 70 = .Reject ∧ confidenceOf 21 = 65/100 :=
  ⟨verdict_confidence_thresholds.1 70 (by norm_num),
    verdict_confidence_thresholds.2.2.2.2.2.1 21 (by norm_num) (by norm_num)⟩

/-! ### C4 -/

/-- C4: the spec's example case scores 85/Reject/0.85 with signals exactly
`[high_amount, urgency_language, high_risk_payment]`; in general the signals
list is an in-order selection from the fixed rule evaluation order, with each
name present iff its rule triggered. -/
theorem example_case_and_signal_order :
    scoreCase caseC1001 =
      { score := 85, verdict := .Reject, confidence := 85/100
        signals := ["high_amount", "urgency_language", "high_risk_payment"] } ∧
    ∀ c : CaseJson,
      (scoreCase c).signals.Sublist signalOrder ∧
      ("high_amount" ∈ (scoreCase c).signals ↔ amountRule c = true) ∧
      ("urgency_language" ∈ (scoreCase c).signals ↔ urgencyRule c = true) ∧
      ("high_risk_payment" ∈ (scoreCase c).signals ↔ paymentRule c = true) ∧
      ("social_engineering_phrase" ∈ (scoreCase c).signals ↔ socialRule c = true) := by
  refine ⟨rfl, fun c => ?_⟩
  have hs : (scoreCase c).signals = (scoreAcc c).2 := rfl
  rw [hs, scoreAcc_eq c]
  cases h1 : amountRule c <;> cases h2 : urgencyRule c <;> cases h3 : paymentRule c <;>
    cases h4 : socialRule c <;> simp [signalOrder]

/-! ### C5 -/

/-- C5: a case whose amount is absent or at most 500 and whose lower-cased
evaluation text contains no trigger phrase scores the baseline 20, verdict
Approve, with no signals. -/
theorem calm_case_scores_baseline (c : CaseJson)
    (hamt : ∀ a : ℚ, c.amount = some a → a ≤ 500)
    (htrig : ∀ p ∈ triggerPhrases, strIncludes (caseText c) p = false) :
    (scoreCase c).score = 20 ∧ (scoreCase c).verdict = .Approve ∧
      (scoreCase c).signals = [] := by
  have h1 : amountRule c = false := by
    unfold amountRule
    cases hc : c.amount with
    | none => rfl
    | some a =>
      simp only [decide_eq_false_iff_not, not_lt]
      exact hamt a hc
  have hu := htrig "urgent" (by simp [triggerPhrases])
  have him := htrig "immediately" (by simp [triggerPhrases])
  have hgc := htrig "gift card" (by simp [triggerPhrases])
  have hwr := htrig "wire" (by simp [triggerPhrases])
  have hcr := htrig "crypto" (by simp [triggerPhrases])
  have hns := htrig "not a scam" (by simp [triggerPhrases])
  have htm := htrig "trust me" (by simp [triggerPhrases])
  have h2 : urgencyRule c = false := by unfold urgencyRule; rw [hu, him]; rfl
  have h3 : paymentRule c = false := by unfold paymentRule; rw [hgc, hwr, hcr]; rfl
  have h4 : socialRule c = false := by unfold socialRule; rw [hns, htm]; rfl
  have hacc : scoreAcc c = (20, []) := by
    rw [scoreAcc_eq c]; simp [h1, h2, h3, h4]
  refine ⟨?_, ?_, ?_⟩
  · show clampScore (scoreAcc c).1 = 20
    rw [hacc]; decide
  · show verdictOf (clampScore (scoreAcc c).1) = .Approve
    rw [hacc]; decide
  · show (scoreAcc c).2 = []
    rw [hacc]

/-- Witness for C5 at the demo case `CASE-1002`. -/
theorem calm_case_scores_baseline_witness :
    (scoreCase caseC1002).score = 20 ∧ (scoreCase caseC1002).verdict = .Approve ∧
      (scoreCase caseC1002).signals = [] :=
  calm_case_scores_baseline caseC1002
    (fun a ha => by
      have h12 : (12 : ℚ) = a := Option.some.inj ha
      rw [← h12]; norm_num)
    (by decide)

/-! ### Helper lemmas about the request handler -/

/-- The `/feedback` branch for a parse-able body, exposed as a single guard. -/
theorem handleFetch_feedback_body (env : Env) (genId now : String) (body : JsonBody)
    (store : List StoredFeedback) :
    handleFetch env genId now ⟨"POST", "/feedback", some body⟩ store =
      if !jsTruthyStr body.case_id || !jsTruthyStr body.reviewer ||
          !jsTruthyStr body.final_verdict then
        (.ok ⟨400, .err "Invalid feedback payload"⟩, store)
      else
        (.ok ⟨200, .ok⟩, store ++ [⟨body, now⟩]) := rfl

/-- The `/score` branch for a parse-able body with a present `case` object. -/
theorem handleFetch_score_case (env : Env) (genId now : String) (c : CaseJson)
    (b1 b2 b3 b4 : Option String) (b5 : Option (List String)) (b6 : Option String)
    (b7 : Option OriginalJson) (store : List StoredFeedback) :
    handleFetch env genId now ⟨"POST", "/score", some ⟨some c, b1, b2, b3, b4, b5, b6, b7⟩⟩
        store =
      if !jsTruthyStr c.summary || !jsTruthyStr c.type then
        (.ok ⟨400, .err "Missing required fields"⟩, store)
      else
        (.ok ⟨200, .score
          { case_id := c.id.getD genId
            risk_score := (scoreCase c).score
            verdict := (scoreCase c).verdict
            confidence := (scoreCase c).confidence
            rationale := "Heuristic risk evaluation for demo purposes."
            signals := (scoreCase c).signals
            model := env.MODEL_NAME.getD "heuristic-mvp"
            backend := env.BACKEND.getD "local"
            timestamp := now }⟩, store) := rfl

/-! ### C2 -/

/-- C2 (code evaluated at the failing inputs): a request whose body is
unparseable makes `await request.json()` reject, and with no try/catch in the
handler the fault propagates (`Except.error`) instead of becoming the
MissingField/InvalidFeedback 400 response the spec requires. -/
theorem malformed_body_propagates_fault :
    handleFetch envDefault "id0" "t0" ⟨"POST", "/score", none⟩ [] = (.error (), []) ∧
    handleFetch envDefault "id0" "t0" ⟨"POST", "/feedback", none⟩ [] = (.error (), []) :=
  ⟨rfl, rfl⟩

/-! ### C3 -/

/-- C3: any single request either leaves the store exactly unchanged or
appends exactly one record at the end, the latter exactly for a successful
feedback submission (a POST `/feedback` whose body parsed and passed the
validation checks, answered 200); moreover every feedback validation failure
leaves the store exactly unchanged.  Existing records are never mutated,
reordered or deleted. -/
theorem store_append_only (env : Env) (genId now : String) (req : Req)
    (store : List StoredFeedback) :
    ((handleFetch env genId now req store).2 = store ∨
      ∃ body : JsonBody, req = ⟨"POST", "/feedback", some body⟩ ∧
        jsTruthyStr body.case_id = true ∧ jsTruthyStr body.reviewer = true ∧
        jsTruthyStr body.final_verdict = true ∧
        (handleFetch env genId now req store).1 = .ok ⟨200, .ok⟩ ∧
        (handleFetch env genId now req store).2 = store ++ [⟨body, now⟩]) ∧
    (∀ body : JsonBody, req = ⟨"POST", "/feedback", some body⟩ →
      (jsTruthyStr body.case_id = false ∨ jsTruthyStr body.reviewer = false ∨
        jsTruthyStr body.final_verdict = false) →
      (handleFetch env genId now req store).2 = store) := by
  constructor
  · obtain ⟨m, p, b⟩ := req
    unfold handleFetch
    dsimp only
    split_ifs with h1 h2 h3 h4 h5
    · exact Or.inl rfl
    · exact Or.inl rfl
    · cases b with
      | none => exact Or.inl rfl
      | some body =>
        obtain ⟨bc, b1, b2, b3, b4, b5, b6, b7⟩ := body
        cases bc with
        | none => exact Or.inl rfl
        | some c =>
          left
          dsimp only
          split <;> rfl
    · cases b with
      | none => exact Or.inl rfl
      | some body =>
        dsimp only
        split_ifs with hv
        · exact Or.inl rfl
        · right
          have hv' : jsTruthyStr body.case_id = true ∧ jsTruthyStr body.reviewer = true ∧
              jsTruthyStr body.final_verdict = true := by
            cases hb1 : jsTruthyStr body.case_id <;> cases hb2 : jsTruthyStr body.reviewer <;>
              cases hb3 : jsTruthyStr body.final_verdict <;> simp_all
          exact ⟨body, by rw [h4.1, h4.2], hv'.1, hv'.2.1, hv'.2.2, rfl, rfl⟩
    · exact Or.inl rfl
    · exact Or.inl rfl
  · intro body hreq hfail
    subst hreq
    rw [handleFetch_feedback_body]
    rcases hfail with h | h | h <;> simp [h]

/-- Witness for C3: an invalid feedback payload (empty `case_id`) leaves the
empty store empty. -/
theorem store_append_only_witness :
    (handleFetch envDefault "id0" "t0" ⟨"POST", "/feedback", some bodyEmptyCaseId⟩ []).2 = [] :=
  (store_append_only envDefault "id0" "t0" ⟨"POST", "/feedback", some bodyEmptyCaseId⟩ []).2
    bodyEmptyCaseId rfl (Or.inl rfl)

/-! ### C1 -/

/-- C1 counterexample: a feedback request with truthy `case_id`, `reviewer`
and `final_verdict` but no `action` at all is accepted with 200 and its record
is stored — not rejected with 400 as the claim states. -/
theorem feedback_missing_action_accepted :
    bodyNoAction.action = none ∧
    handleFetch envDefault "id0" "t0" ⟨"POST", "/feedback", some bodyNoAction⟩ [] =
      (.ok ⟨200, .ok⟩, [⟨bodyNoAction, "t0"⟩]) :=
  ⟨rfl, rfl⟩

/-- C1 amended: the feedback operation returns 400 "Invalid feedback payload"
iff one of `case_id`, `reviewer`, `final_verdict` is JS-falsy (absent or
empty); the values of `action` and `final_verdict` are never checked, and any
body passing the three truthiness checks is accepted and appended. -/
theorem feedback_ignores_action_values (env : Env) (genId now : String) (body : JsonBody)
    (store : List StoredFeedback) :
    (handleFetch env genId now ⟨"POST", "/feedback", some body⟩ store =
        (.ok ⟨400, .err "Invalid feedback payload"⟩, store) ↔
      (jsTruthyStr body.case_id = false ∨ jsTruthyStr body.reviewer = false ∨
        jsTruthyStr body.final_verdict = false)) ∧
    (jsTruthyStr body.case_id = true → jsTruthyStr body.reviewer = true →
      jsTruthyStr body.final_verdict = true →
      handleFetch env genId now ⟨"POST", "/feedback", some body⟩ store =
        (.ok ⟨200, .ok⟩, store ++ [⟨body, now⟩])) := by
  rw [handleFetch_feedback_body]
  cases hc : jsTruthyStr body.case_id <;> cases hr : jsTruthyStr body.reviewer <;>
    cases hv : jsTruthyStr body.final_verdict <;> simp

/-- Witness for C1's amended theorem: a fully valid Override body is accepted
and stored. -/
theorem feedback_ignores_action_values_witness :
    handleFetch envDefault "id0" "t0" ⟨"POST", "/feedback", some bodyOverride⟩ [] =
      (.ok ⟨200, .ok⟩, [⟨bodyOverride, "t0"⟩]) :=
  (feedback_ignores_action_values envDefault "id0" "t0" bodyOverride []).2 rfl rfl rfl

/-! ### C10 -/

/-- C10: required fields that are present but equal to the empty string are
treated as absent by the truthiness checks — `/score` with `summary` or `type`
equal to `""` returns 400 "Missing required fields", and `/feedback` with
`case_id`, `reviewer` or `final_verdict` equal to `""` returns 400 "Invalid
feedback payload", the store left unchanged. -/
theorem empty_fields_treated_as_absent (env : Env) (genId now : String)
    (store : List StoredFeedback) :
    (∀ (body : JsonBody) (c : CaseJson), body.case = some c → c.summary = some "" →
      handleFetch env genId now ⟨"POST", "/score", some body⟩ store =
        (.ok ⟨400, .err "Missing required fields"⟩, store)) ∧
    (∀ (body : JsonBody) (c : CaseJson), body.case = some c → c.type = some "" →
      handleFetch env genId now ⟨"POST", "/score", some body⟩ store =
        (.ok ⟨400, .err "Missing required fields"⟩, store)) ∧
    (∀ body : JsonBody, body.case_id = some "" →
      handleFetch env genId now ⟨"POST", "/feedback", some body⟩ store =
        (.ok ⟨400, .err "Invalid feedback payload"⟩, store)) ∧
    (∀ body : JsonBody, body.reviewer = some "" →
      handleFetch env genId now ⟨"POST", "/feedback", some body⟩ store =
        (.ok ⟨400, .err "Invalid feedback payload"⟩, store)) ∧
    (∀ body : JsonBody, body.final_verdict = some "" →
      handleFetch env genId now ⟨"POST", "/feedback", some body⟩ store =
        (.ok ⟨400, .err "Invalid feedback payload"⟩, store)) := by
  refine ⟨?_, ?_, ?_, ?_, ?_⟩
  · intro body c hc hs
    obtain ⟨bc, b1, b2, b3, b4, b5, b6, b7⟩ := body
    obtain rfl : bc = some c := hc
    rw [handleFetch_score_case, hs]
    rfl
  · intro body c hc ht
    obtain ⟨bc, b1, b2, b3, b4, b5, b6, b7⟩ := body
    obtain rfl : bc = some c := hc
    rw [handleFetch_score_case, ht]
    simp [jsTruthyStr]
  · intro body hc
    rw [handleFetch_feedback_body, hc]
    rfl
  · intro body hr
    rw [handleFetch_feedback_body, hr]
    simp [jsTruthyStr]
  · intro body hv
    rw [handleFetch_feedback_body, hv]
    simp [jsTruthyStr]

/-- Witness for C10 at concrete empty-string bodies. -/
theorem empty_fields_treated_as_absent_witness :
    handleFetch envDefault "id0" "t0" ⟨"POST", "/score", some bodyEmptySummary⟩ [] =
      (.ok ⟨400, .err "Missing required fields"⟩, []) ∧
    handleFetch envDefault "id0" "t0" ⟨"POST", "/feedback", some bodyEmptyCaseId⟩ [] =
      (.ok ⟨400, .err "Invalid feedback payload"⟩, []) :=
  ⟨(empty_fields_treated_as_absent envDefault "id0" "t0" []).1 bodyEmptySummary _ rfl rfl,
    (empty_fields_treated_as_absent envDefault "id0" "t0" []).2.2.1 bodyEmptyCaseId rfl⟩

/-! ### C8 -/

/-- C8: the analytics override rate is the Override count divided by the total,
rounded to two decimals, with the whole summary zeroed on an empty store. -/
theorem override_rate_formula :
    computeAnalytics [] = { total_feedback := 0, override_rate := 0, top_reasons := [] } ∧
    ∀ store : List StoredFeedback, store ≠ [] →
      (computeAnalytics store).total_feedback = store.length ∧
      (computeAnalytics store).override_rate =
        round2 ((store.countP (fun f => f.body.action == some "Override") : ℚ) /
          (store.length : ℚ)) := by
  refine ⟨rfl, fun store h => ⟨rfl, ?_⟩⟩
  have hne : store.length ≠ 0 := fun hl => h (List.length_eq_zero.mp hl)
  have he : (computeAnalytics store).override_rate =
      if store.length = 0 then 0 else
        round2 (((store.filter (fun f => f.body.action == some "Override")).length : ℚ) /
          (store.length : ℚ)) := rfl
  rw [he, if_neg hne, List.countP_eq_length_filter]

/-- Witness for C8 at the two-record store. -/
theorem override_rate_formula_witness :
    (computeAnalytics storeTwo).total_feedback = storeTwo.length ∧
    (computeAnalytics storeTwo).override_rate =
      round2 ((storeTwo.countP (fun f => f.body.action == some "Override") : ℚ) /
        (storeTwo.length : ℚ)) :=
  override_rate_formula.2 storeTwo (by decide)

/-! ### Helper lemmas about the reasons tally -/

/-- `bump` leaves the key sequence unchanged for a known key and appends a new
key at the end otherwise. -/
theorem bump_keys (acc : List (String × ℕ)) (r : String) :
    (bump acc r).map Prod.fst =
      if r ∈ acc.map Prod.fst then acc.map Prod.fst else acc.map Prod.fst ++ [r] := by
  induction acc with
  | nil => simp [bump]
  | cons kc t ih =>
    obtain ⟨k, c⟩ := kc
    by_cases hk : k = r
    · subst hk; simp [bump]
    · by_cases hm : r ∈ t.map Prod.fst <;>
        simp [bump, hk, ih, hm, Ne.symm hk]

/-- `bump` adds one to the recorded total of the bumped key and nothing else. -/
theorem keyCount_bump (acc : List (String × ℕ)) (r x : String) :
    keyCount (bump acc r) x = keyCount acc x + (if x = r then 1 else 0) := by
  induction acc with
  | nil =>
    by_cases hx : x = r
    · simp [bump, keyCount, hx]
    · have hx' : ¬r = x := fun h => hx h.symm
      simp [bump, keyCount, hx, hx']
  | cons kc t ih =>
    obtain ⟨k, c⟩ := kc
    by_cases hk : k = r
    · subst hk
      by_cases hx : x = k
      · subst hx
        simp [bump, keyCount]
        omega
      · have hx' : ¬k = x := fun h => hx h.symm
        simp [bump, keyCount, hx, hx']
    · simp only [bump, if_neg hk, keyCount, ih]
      omega

/-- The tally of a snoc is a `bump` of the tally. -/
theorem tallyList_snoc (t : List String) (r : String) :
    tallyList (t ++ [r]) = bump (tallyList t) r := by
  simp [tallyList, List.foldl_append]

/-- The tally records exactly the number of occurrences of each reason. -/
theorem keyCount_tally (l : List String) (x : String) :
    keyCount (tallyList l) x = l.count x := by
  induction l using List.reverseRecOn with
  | nil => rfl
  | append_singleton t r ih =>
    rw [tallyList_snoc, keyCount_bump, ih, List.count_append]
    by_cases hx : x = r
    · simp [hx, List.count_singleton]
    · have hx' : ¬r = x := fun h => hx h.symm
      simp [hx, hx', List.count_singleton]

/-- A key that appears nowhere in an association list has total zero. -/
theorem keyCount_of_not_mem (acc : List (String × ℕ)) (x : String)
    (h : x ∉ acc.map Prod.fst) : keyCount acc x = 0 := by
  induction acc with
  | nil => rfl
  | cons kc t ih =>
    obtain ⟨k, c⟩ := kc
    simp only [List.map_cons, List.mem_cons] at h
    push_neg at h
    simp [keyCount, Ne.symm h.1, ih h.2]

/-- In a duplicate-free association list, each entry's stored count is its
key's total. -/
theorem mem_entry_keyCount (acc : List (String × ℕ)) (p : String × ℕ)
    (hnd : (acc.map Prod.fst).Nodup) (hp : p ∈ acc) : keyCount acc p.1 = p.2 := by
  induction acc with
  | nil => cases hp
  | cons kc t ih =>
    obtain ⟨k, c⟩ := kc
    simp only [List.map_cons, List.nodup_cons] at hnd
    rcases List.mem_cons.mp hp with h | h
    · subst h
      simp [keyCount, keyCount_of_not_mem t _ hnd.1]
    · have hk : p.1 ≠ k := fun he => hnd.1 (he ▸ List.mem_map_of_mem Prod.fst h)
      simp [keyCount, Ne.symm hk, ih hnd.2 h]

/-- The tally's key sequence is duplicate-free. -/
theorem tally_keys_nodup (l : List String) : ((tallyList l).map Prod.fst).Nodup := by
  induction l using List.reverseRecOn with
  | nil => simp [tallyList]
  | append_singleton t r ih =>
    rw [tallyList_snoc, bump_keys]
    split_ifs with hm
    · exact ih
    · simp [List.nodup_append, ih, hm]

/-- The tally has a key exactly for the reasons that occur. -/
theorem tally_keys_mem (l : List String) (x : String) :
    x ∈ (tallyList l).map Prod.fst ↔ x ∈ l := by
  induction l using List.reverseRecOn with
  | nil => simp [tallyList]
  | append_singleton t r ih =>
    rw [tallyList_snoc, bump_keys]
    split_ifs with hm
    · rw [ih]
      constructor
      · exact fun h => List.mem_append_left _ h
      · intro h
        rcases List.mem_append.mp h with h | h
        · exact h
        · simp only [List.mem_singleton] at h
          subst h
          exact ih.mp hm
    · simp [ih]

/-- Index of a genuinely new element appended at the end. -/
theorem indexOf_append_new (l : List String) (r : String) (h : r ∉ l) :
    (l ++ [r]).indexOf r = l.length := by
  induction l with
  | nil => simp [List.indexOf_cons]
  | cons b bs ih =>
    simp only [List.cons_append, List.indexOf_cons]
    have hab : (b == r) = false := by
      simp only [List.mem_cons, not_or] at h
      exact beq_eq_false_iff_ne.mpr fun e => h.1 e.symm
    simp only [List.mem_cons, not_or] at h
    simp [hab, ih h.2]

/-- The tally's keys are ordered by first occurrence in the reasons list. -/
theorem tally_keys_pairwise (l : List String) :
    ((tallyList l).map Prod.fst).Pairwise (fun a b => l.indexOf a < l.indexOf b) := by
  induction l using List.reverseRecOn with
  | nil => simp [tallyList]
  | append_singleton t r ih =>
    rw [tallyList_snoc, bump_keys]
    have hup : ∀ {a : String}, a ∈ (tallyList t).map Prod.fst →
        (t ++ [r]).indexOf a = t.indexOf a :=
      fun ha => List.indexOf_append_of_mem ((tally_keys_mem t _).mp ha)
    split_ifs with hm
    · exact List.Pairwise.imp_of_mem (fun ha hb hr => by rw [hup ha, hup hb]; exact hr) ih
    · rw [List.pairwise_append]
      refine ⟨List.Pairwise.imp_of_mem (fun ha hb hr => by rw [hup ha, hup hb]; exact hr) ih,
        List.pairwise_singleton _ _, ?_⟩
      intro a ha b hb
      simp only [List.mem_singleton] at hb
      subst hb
      have hrt : b ∉ t := fun hin => hm ((tally_keys_mem t b).mpr hin)
      rw [hup ha, indexOf_append_new t b hrt]
      exact List.indexOf_lt_length.mpr ((tally_keys_mem t a).mp ha)

/-! ### Helper lemmas about the stable count sort -/

/-- Inserting permutes: the result holds the new element and the old ones. -/
theorem insertByCountDesc_perm (x : String × ℕ) (l : List (String × ℕ)) :
    List.Perm (insertByCountDesc x l) (x :: l) := by
  induction l with
  | nil => exact List.Perm.refl _
  | cons y ys ih =>
    unfold insertByCountDesc
    split_ifs with h
    · exact (ih.cons y).trans (List.Perm.swap x y ys)
    · exact List.Perm.refl _

/-- The sort permutes its input. -/
theorem sortByCountDesc_perm (l : List (String × ℕ)) :
    List.Perm (sortByCountDesc l) l := by
  induction l with
  | nil => exact List.Perm.refl _
  | cons x xs ih => exact (insertByCountDesc_perm x _).trans (ih.cons x)

/-- Inserting into a count-descending list keeps it count-descending. -/
theorem insertByCountDesc_sorted (x : String × ℕ) (l : List (String × ℕ))
    (h : l.Pairwise (fun a b => b.2 ≤ a.2)) :
    (insertByCountDesc x l).Pairwise (fun a b => b.2 ≤ a.2) := by
  induction l with
  | nil => exact List.pairwise_singleton _ _
  | cons y ys ih =>
    rcases List.pairwise_cons.mp h with ⟨hy, hys⟩
    unfold insertByCountDesc
    split_ifs with hlt
    · refine List.pairwise_cons.mpr ⟨?_, ih hys⟩
      intro z hz
      rcases List.mem_cons.mp ((insertByCountDesc_perm x ys).mem_iff.mp hz) with rfl | hz'
      · exact le_of_lt hlt
      · exact hy z hz'
    · refine List.pairwise_cons.mpr ⟨?_, h⟩
      intro z hz
      rcases List.mem_cons.mp hz with rfl | hz'
      · exact not_lt.mp hlt
      · exact le_trans (hy z hz') (not_lt.mp hlt)

/-- The sort's output is count-descending. -/
theorem sortByCountDesc_sorted (l : List (String × ℕ)) :
    (sortByCountDesc l).Pairwise (fun a b => b.2 ≤ a.2) := by
  induction l with
  | nil => exact List.Pairwise.nil
  | cons x xs ih => exact insertByCountDesc_sorted x _ ih

/-- Stable insertion: when the input is count-descending, pairwise `S`-related,
and the new element is `S`-before every equal-count element, the insertion is
pairwise ordered by count with `S` breaking ties. -/
theorem insertByCountDesc_pairwise_tiebreak (S : (String × ℕ) → (String × ℕ) → Prop)
    (x : String × ℕ) (l : List (String × ℕ))
    (hT : l.Pairwise (fun a b => b.2 < a.2 ∨ (a.2 = b.2 ∧ S a b)))
    (hsort : l.Pairwise (fun a b => b.2 ≤ a.2))
    (hS : ∀ y ∈ l, y.2 = x.2 → S x y) :
    (insertByCountDesc x l).Pairwise
      (fun a b => b.2 < a.2 ∨ (a.2 = b.2 ∧ S a b)) := by
  induction l with
  | nil => exact List.pairwise_singleton _ _
  | cons y ys ih =>
    rcases List.pairwise_cons.mp hT with ⟨hTy, hTys⟩
    rcases List.pairwise_cons.mp hsort with ⟨hsy, hsys⟩
    unfold insertByCountDesc
    split_ifs with hlt
    · refine List.pairwise_cons.mpr
        ⟨?_, ih hTys hsys (fun z hz he => hS z (List.mem_cons_of_mem y hz) he)⟩
      intro z hz
      rcases List.mem_cons.mp ((insertByCountDesc_perm x ys).mem_iff.mp hz) with rfl | hz'
      · exact Or.inl hlt
      · exact hTy z hz'
    · refine List.pairwise_cons.mpr ⟨?_, List.pairwise_cons.mpr ⟨hTy, hTys⟩⟩
      intro z hz
      rcases List.mem_cons.mp hz with rfl | hz'
      · rcases lt_or_eq_of_le (not_lt.mp hlt) with h | h
        · exact Or.inl h
        · exact Or.inr ⟨h.symm, hS z (List.mem_cons_self z ys) h⟩
      · have hz2 : z.2 ≤ x.2 := le_trans (hsy z hz') (not_lt.mp hlt)
        rcases lt_or_eq_of_le hz2 with h | h
        · exact Or.inl h
        · exact Or.inr ⟨h.symm, hS z (List.mem_cons_of_mem y hz') h⟩

/-- The stable sort of an `S`-ordered list is ordered by count descending with
`S` breaking ties. -/
theorem sortByCountDesc_pairwise_tiebreak (S : (String × ℕ) → (String × ℕ) → Prop)
    (l : List (String × ℕ)) (hS : l.Pairwise S) :
    (sortByCountDesc l).Pairwise
      (fun a b => b.2 < a.2 ∨ (a.2 = b.2 ∧ S a b)) := by
  induction l with
  | nil => exact List.Pairwise.nil
  | cons x xs ih =>
    rcases List.pairwise_cons.mp hS with ⟨hx, hxs⟩
    exact insertByCountDesc_pairwise_tiebreak S x _ (ih hxs) (sortByCountDesc_sorted xs)
      (fun y hy _ => hx y ((sortByCountDesc_perm xs).mem_iff.mp hy))

/-- The ascending key-value insertion permutes. -/
theorem insertByKeyValAsc_perm (x : String × ℕ) (l : List (String × ℕ)) :
    List.Perm (insertByKeyValAsc x l) (x :: l) := by
  induction l with
  | nil => exact List.Perm.refl _
  | cons y ys ih =>
    unfold insertByKeyValAsc
    split_ifs with h
    · exact (ih.cons y).trans (List.Perm.swap x y ys)
    · exact List.Perm.refl _

/-- The ascending key-value sort permutes its input. -/
theorem sortByKeyValAsc_perm (l : List (String × ℕ)) :
    List.Perm (sortByKeyValAsc l) l := by
  induction l with
  | nil => exact List.Perm.refl _
  | cons x xs ih => exact (insertByKeyValAsc_perm x _).trans (ih.cons x)

/-- `Object.entries`' enumeration is a permutation of the property table. -/
theorem entriesOf_perm (l : List (String × ℕ)) : List.Perm (entriesOf l) l := by
  unfold entriesOf
  exact ((sortByKeyValAsc_perm _).append_right _).trans (List.filter_append_perm _ l)

/-- When no key is array-index-like, `Object.entries`' enumeration is exactly
the creation order. -/
theorem entriesOf_of_no_index (l : List (String × ℕ))
    (h : ∀ p ∈ l, isArrayIndexKey p.1 = false) : entriesOf l = l := by
  have h1 : l.filter (fun p => isArrayIndexKey p.1) = [] :=
    List.filter_eq_nil_iff.mpr (fun p hp => by simp [h p hp])
  have h2 : l.filter (fun p => !isArrayIndexKey p.1) = l :=
    List.filter_eq_self.mpr (fun p hp => by simp [h p hp])
  simp [entriesOf, h1, h2, sortByKeyValAsc]

/-! ### C9 -/

/-- C9 counterexample: with reason codes `["b", "0"]` (in that order), the
array-index-like key `"0"` is enumerated first, so the equal-count tie comes
out `[("0", 1), ("b", 1)]` — not the first-occurrence order the claim
asserts. -/
theorem top_reasons_numeric_key_tie_order :
    flatReasons storeNumericReason = ["b", "0"] ∧
    (computeAnalytics storeNumericReason).top_reasons = [("0", 1), ("b", 1)] ∧
    ¬ (computeAnalytics storeNumericReason).top_reasons.Pairwise
        (fun p q => q.2 < p.2 ∨ (p.2 = q.2 ∧
          (flatReasons storeNumericReason).indexOf p.1 <
            (flatReasons storeNumericReason).indexOf q.1)) := by
  have htop : (computeAnalytics storeNumericReason).top_reasons = [("0", 1), ("b", 1)] := by
    decide
  refine ⟨rfl, htop, ?_⟩
  intro h
  rw [htop] at h
  have hrel := (List.pairwise_cons.mp h).1 ("b", 1) (List.mem_singleton_self _)
  exact absurd hrel (by decide)

/-- C9 amended: `top_reasons` holds exactly one pair per distinct reason
occurring in the store's `reason_codes` (absent/empty lists contribute
nothing), each pair carrying the reason's total occurrence count, ordered by
count descending; when no stored reason code is an array-index-like string,
ties are in order of first occurrence in the store (array-index-like reason
codes are enumerated first in ascending numeric order instead, see the
counterexample). -/
theorem top_reasons_ranked (store : List StoredFeedback) :
    (((computeAnalytics store).top_reasons.map Prod.fst).Nodup) ∧
    (∀ r : String, r ∈ (computeAnalytics store).top_reasons.map Prod.fst ↔
      r ∈ flatReasons store) ∧
    (∀ p ∈ (computeAnalytics store).top_reasons, p.2 = (flatReasons store).count p.1) ∧
    ((computeAnalytics store).top_reasons.Pairwise (fun p q => q.2 ≤ p.2)) ∧
    ((∀ r ∈ flatReasons store, isArrayIndexKey r = false) →
      (computeAnalytics store).top_reasons.Pairwise
        (fun p q => q.2 < p.2 ∨ (p.2 = q.2 ∧
          (flatReasons store).indexOf p.1 < (flatReasons store).indexOf q.1))) := by
  have htr : (computeAnalytics store).top_reasons =
      sortByCountDesc (entriesOf (tallyList (flatReasons store))) := rfl
  have hperm : List.Perm (sortByCountDesc (entriesOf (tallyList (flatReasons store))))
      (tallyList (flatReasons store)) :=
    (sortByCountDesc_perm _).trans (entriesOf_perm _)
  refine ⟨?_, ?_, ?_, ?_, ?_⟩
  · rw [htr]
    exact ((hperm.map Prod.fst).nodup_iff).mpr (tally_keys_nodup _)
  · intro r
    rw [htr]
    exact ((hperm.map Prod.fst).mem_iff).trans (tally_keys_mem _ r)
  · intro p hp
    rw [htr] at hp
    have hp' : p ∈ tallyList (flatReasons store) := hperm.mem_iff.mp hp
    have hc := mem_entry_keyCount _ p (tally_keys_nodup _) hp'
    rw [← keyCount_tally (flatReasons store) p.1]
    exact hc.symm
  · rw [htr]
    exact sortByCountDesc_sorted _
  · intro hno
    rw [htr]
    have hkeys : ∀ p ∈ tallyList (flatReasons store), isArrayIndexKey p.1 = false :=
      fun p hp => hno p.1 ((tally_keys_mem _ _).mp (List.mem_map_of_mem Prod.fst hp))
    rw [entriesOf_of_no_index _ hkeys]
    have h2 := List.pairwise_map.mp (tally_keys_pairwise (flatReasons store))
    exact sortByCountDesc_pairwise_tiebreak _ _ h2

/-- Witness for C9 at the two-record store (no array-index-like codes): the
ranked pair for `false_positive` carries its total occurrence count, and the
whole ranking satisfies the count-then-first-occurrence order. -/
theorem top_reasons_ranked_witness :
    ((("false_positive", 2) : String × ℕ).2 =
      (flatReasons storeTwo).count (("false_positive", 2) : String × ℕ).1) ∧
    (computeAnalytics storeTwo).top_reasons.Pairwise
      (fun p q => q.2 < p.2 ∨ (p.2 = q.2 ∧
        (flatReasons storeTwo).indexOf p.1 < (flatReasons storeTwo).indexOf q.1)) :=
  ⟨(top_reasons_ranked storeTwo).2.2.1 ("false_positive", 2) (by decide),
    (top_reasons_ranked storeTwo).2.2.2.2 (by decide)⟩

/-- Witness for C4: the example case's signal list is an in-order selection
from the fixed rule order. -/
theorem example_case_and_signal_order_witness :
    (scoreCase caseC1001).signals.Sublist signalOrder :=
  (example_case_and_signal_order.2 caseC1001).1
